import Mathlib

/-
Verification of the design-principles repository: shallow embeddings of the
four example scripts (srp.py, ocp.py, isp.py, dip.py) and proofs of the
behavioural properties stated in the specification.
-/

set_option maxHeartbeats 1000000

/-! ## srp.py: ShoppingList and PersistenceManager -/

/-- The `ShoppingList` class state: `self.entries` (a Python list of strings)
and `self.count` (a Python int). -/
structure ShoppingList where
  entries : List String
  count : Int
deriving DecidableEq

/-- `ShoppingList.__init__`: `self.entries = []`, `self.count = 0`. -/
def ShoppingList.init : ShoppingList := ⟨[], 0⟩

/-- The f-string `f"{self.count}: {text}"` built in `add_entry`. -/
def entryLabel (count : Int) (text : String) : String :=
  toString count ++ ": " ++ text

/-- `ShoppingList.add_entry`: append `f"{self.count}: {text}"`, then
`self.count += 1`. -/
def ShoppingList.add_entry (s : ShoppingList) (text : String) : ShoppingList :=
  ⟨s.entries ++ [entryLabel s.count text], s.count + 1⟩

/-- Python `del lst[pos]` semantics for a possibly negative index: a negative
index is offset by the length; the deletion succeeds iff the adjusted index is
in `[0, len)`, and raises `IndexError` (here: `none`) otherwise. -/
def pyDelIndex (l : List String) (pos : Int) : Option (List String) :=
  let n : Int := l.length
  let i : Int := if pos < 0 then pos + n else pos
  if 0 ≤ i ∧ i < n then some (l.eraseIdx i.toNat) else none

/-- `ShoppingList.remove_entry`: `del self.entries[pos]` followed by
`self.count -= 1`.  If the `del` raises, the exception propagates before the
decrement runs, so the error case carries the object state at that moment,
which is the unmodified state. -/
def ShoppingList.remove_entry (s : ShoppingList) (pos : Int) :
    Except ShoppingList ShoppingList :=
  match pyDelIndex s.entries pos with
  | some l => Except.ok ⟨l, s.count - 1⟩
  | none => Except.error s

/-- `ShoppingList.__str__`: `"\n".join(self.entries)`. -/
def ShoppingList.str (s : ShoppingList) : String :=
  String.intercalate "\n" s.entries

/-- One public mutation of a `ShoppingList`. -/
inductive Op where
  | add (text : String)
  | remove (pos : Int)

/-- Run one operation, `none` when it raises. -/
def applyOp (s : ShoppingList) : Op → Option ShoppingList
  | Op.add t => some (s.add_entry t)
  | Op.remove p => (s.remove_entry p).toOption

/-- Run a sequence of operations; `none` as soon as one raises. -/
def runOps (s : ShoppingList) : List Op → Option ShoppingList
  | [] => some s
  | o :: rest =>
    match applyOp s o with
    | some s1 => runOps s1 rest
    | none => none

/-- Number of `add_entry` calls in a sequence of operations. -/
def numAdds : List Op → Nat
  | [] => 0
  | Op.add _ :: rest => numAdds rest + 1
  | Op.remove _ :: rest => numAdds rest

/-- Number of `remove_entry` calls in a sequence of operations. -/
def numRemoves : List Op → Nat
  | [] => 0
  | Op.add _ :: rest => numRemoves rest
  | Op.remove _ :: rest => numRemoves rest + 1

/-- The labelled strings inserted while running a sequence of operations from
state `s`, in insertion order (the list of strings `add_entry` appends). -/
def insertedFrom (s : ShoppingList) : List Op → List String
  | [] => []
  | Op.add t :: rest => entryLabel s.count t :: insertedFrom (s.add_entry t) rest
  | Op.remove p :: rest =>
    match s.remove_entry p with
    | Except.ok s1 => insertedFrom s1 rest
    | Except.error _ => []

/-! ## srp.py: PersistenceManager as a trace of file operations -/

/-- Observable file-handle events of `save_to_file`. -/
inductive FileEvent where
  | opened
  | wrote (data : String)
  | closed
deriving DecidableEq

/-- Which of the two fallible I/O statements fail in a given run. -/
structure FsBehavior where
  openFails : Bool
  writeFails : Bool

/-- `PersistenceManager.save_to_file(journal, filename)` transcribed
statement by statement with Python exception semantics (there is no
`try`/`finally`): `file = open(filename, "w")`; `file.write(str(journal))`;
`file.close()`.  A raising statement aborts the rest of the body.  The result
is the trace of file events that actually ran, paired with whether an
exception propagated to the caller. -/
def PersistenceManager.save_to_file (journal : ShoppingList) (beh : FsBehavior) :
    List FileEvent × Bool :=
  if beh.openFails then
    ([], true)
  else if beh.writeFails then
    ([FileEvent.opened], true)
  else
    ([FileEvent.opened, FileEvent.wrote journal.str, FileEvent.closed], false)

/-! ## ocp.py: Color, Size, Product, Specification, Filter -/

inductive Color where
  | RED
  | GREEN
  | BLUE
deriving DecidableEq

inductive Size where
  | SMALL
  | MEDIUM
  | LARGE
deriving DecidableEq

structure Product where
  name : String
  color : Color
  size : Size
deriving DecidableEq

/-- The `Specification` class hierarchy of ocp.py as a closed datatype:
the base class (whose `is_satisfied` body is `pass`), the three leaf
specifications, `AndSpecification` over a tuple of child specifications, and
the binary `AndSpecificationWorse`. -/
inductive Specification where
  | baseSpec
  | colorSpec (color : Color)
  | sizeSpec (size : Size)
  | nameSpec (name : String)
  | andSpec (args : List Specification)
  | andSpecWorse (spec1 spec2 : Specification)

mutual

/-- `is_satisfied` of each class.  The base class returns `None`, which is
falsy wherever the program consumes the result (`all(...)`, `if ...`), so it
embeds as `false`.  `NameSpecification` compares lower-cased names.
`AndSpecification.is_satisfied` is `all(map(lambda spec:
spec.is_satisfied(item), self.args))`. -/
def Specification.is_satisfied : Specification → Product → Bool
  | Specification.baseSpec, _ => false
  | Specification.colorSpec c, item => item.color = c
  | Specification.sizeSpec sz, item => item.size = sz
  | Specification.nameSpec n, item => item.name.toLower = n.toLower
  | Specification.andSpec args, item => Specification.all_satisfied args item
  | Specification.andSpecWorse s1 s2, item =>
    Specification.is_satisfied s1 item && Specification.is_satisfied s2 item

/-- `all(map(lambda spec: spec.is_satisfied(item), args))`, unfolded over the
tuple left to right with short-circuiting, exactly as Python's `all`. -/
def Specification.all_satisfied : List Specification → Product → Bool
  | [], _ => true
  | s :: rest, item =>
    Specification.is_satisfied s item && Specification.all_satisfied rest item

end

/-- `Specification.__and__(self, other)`: `AndSpecification(self, other)`. -/
def Specification.and_op (self other : Specification) : Specification :=
  Specification.andSpec [self, other]

/-- `BetterFilter.filter(items, spec)`: the generator
`for item in items: if spec.is_satisfied(item): yield item`, with the lazily
yielded sequence materialised as the list of items in yield order. -/
def BetterFilter.filter (items : List Product) (spec : Specification) :
    List Product :=
  match items with
  | [] => []
  | item :: rest =>
    if spec.is_satisfied item then item :: BetterFilter.filter rest spec
    else BetterFilter.filter rest spec

/-! ## isp.py: capability interfaces as resolved attribute tables -/

/-- The three method names appearing in isp.py. -/
inductive MethodName where
  | printM
  | scanM
  | faxM
deriving DecidableEq

/-- The kinds of method bodies appearing in isp.py. -/
inductive MethodBody where
  | raisesNotImpl
  | passBody
  | printsOutput
deriving DecidableEq

/-- `class Machine`: all three methods raise `NotImplementedError()`. -/
def Machine.methods : List (MethodName × MethodBody) :=
  [(MethodName.printM, MethodBody.raisesNotImpl),
   (MethodName.faxM, MethodBody.raisesNotImpl),
   (MethodName.scanM, MethodBody.raisesNotImpl)]

/-- `class MultiFunctionPrinter(Machine)`: its own `pass` bodies precede the
inherited `Machine` methods in resolution order. -/
def MultiFunctionPrinter.methods : List (MethodName × MethodBody) :=
  [(MethodName.printM, MethodBody.passBody),
   (MethodName.faxM, MethodBody.passBody),
   (MethodName.scanM, MethodBody.passBody)] ++ Machine.methods

/-- `class OldFashionedPrinter(Machine)`: `print` prints, `fax` is a silent
`pass`, `scan` raises `NotImplementedError("Printer cannot scan!")`. -/
def OldFashionedPrinter.methods : List (MethodName × MethodBody) :=
  [(MethodName.printM, MethodBody.printsOutput),
   (MethodName.faxM, MethodBody.passBody),
   (MethodName.scanM, MethodBody.raisesNotImpl)] ++ Machine.methods

/-- `class Printer`: only an abstract `print` whose body is `pass`. -/
def Printer.methods : List (MethodName × MethodBody) :=
  [(MethodName.printM, MethodBody.passBody)]

/-- `class Scanner`: only an abstract `scan` whose body is `pass`. -/
def Scanner.methods : List (MethodName × MethodBody) :=
  [(MethodName.scanM, MethodBody.passBody)]

/-- `class MyPrinter(Printer)`: its own `print` (which prints), then the
methods inherited from `Printer`.  No `scan` and no `fax` anywhere. -/
def MyPrinter.methods : List (MethodName × MethodBody) :=
  [(MethodName.printM, MethodBody.printsOutput)] ++ Printer.methods

/-- `class Photocopier(Printer, Scanner)`: own `print` and `scan`, then the
bases in method-resolution order. -/
def Photocopier.methods : List (MethodName × MethodBody) :=
  [(MethodName.printM, MethodBody.printsOutput),
   (MethodName.scanM, MethodBody.passBody)] ++ Printer.methods ++ Scanner.methods

/-- Python attribute lookup on a class: first matching entry of the resolved
table, `none` when the attribute does not exist (an `AttributeError` would be
raised before any method body could run). -/
def resolveMethod (methods : List (MethodName × MethodBody)) (m : MethodName) :
    Option MethodBody :=
  match methods with
  | [] => none
  | (n, b) :: rest => if n = m then some b else resolveMethod rest m

/-! ## dip.py: Person, Relationship, Relationships -/

inductive Relationship where
  | PARENT
  | CHILD
  | SIBLING
deriving DecidableEq

structure Person where
  name : String
deriving DecidableEq

/-- One element of `Relationships.relations`: the tuple
`(subject, relation-kind, object)`. -/
abbrev Edge := Person × Relationship × Person

/-- The pure effect of `Relationships.add_parent_and_child` on the stored
list: `self.relations.append((parent, Relationship.PARENT, child))` followed
by `self.relations.append((child, Relationship.PARENT, parent))`. -/
def Relationships.add_parent_and_child (relations : List Edge)
    (parent child : Person) : List Edge :=
  (relations ++ [(parent, Relationship.PARENT, child)])
    ++ [(child, Relationship.PARENT, parent)]

/-- `Relationships.find_all_children_of`: the generator
`for r in relations: if r[0].name == name and r[1] == Relationship.PARENT:
yield r[2].name`, materialised in yield order. -/
def Relationships.find_all_children_of : List Edge → String → List String
  | [], _ => []
  | r :: rest, name =>
    if r.1.name = name ∧ r.2.1 = Relationship.PARENT then
      r.2.2.name :: Relationships.find_all_children_of rest name
    else
      Relationships.find_all_children_of rest name

/-! Class-attribute aliasing model for `Relationships.relations`.

In dip.py the class body runs `relations = []` once, creating a single list
object stored as a class attribute.  Instances never assign
`self.relations`, so `self.relations` resolves through the instance
dictionary (empty) to that one class-level list object, which
`append` then mutates in place.  We model list objects as cells of a heap
addressed by `Nat`. -/

/-- A heap of Python list objects holding edge lists. -/
def PyHeap := Nat → List Edge

/-- In-place mutation of the list object at reference `r`. -/
def PyHeap.write (h : PyHeap) (r : Nat) (v : List Edge) : PyHeap :=
  fun r2 => if r2 = r then v else h r2

/-- A `Relationships` instance: its `__dict__` entry for `relations`, if an
assignment `self.relations = ...` ever created one.  The source contains no
such assignment. -/
structure RelationshipsObj where
  relations_attr : Option Nat

/-- `Relationships()`: no `__init__` is defined, so the instance dictionary
starts empty. -/
def Relationships.new : RelationshipsObj := ⟨none⟩

/-- Python attribute lookup for `self.relations`: the instance dictionary
first, falling back to the class attribute `classRef`. -/
def RelationshipsObj.relationsRef (obj : RelationshipsObj) (classRef : Nat) :
    Nat :=
  obj.relations_attr.getD classRef

/-- `add_parent_and_child` through an instance: look up `self.relations`,
then mutate that one list object in place with the two appends. -/
def RelationshipsObj.add_parent_and_child (obj : RelationshipsObj)
    (classRef : Nat) (h : PyHeap) (parent child : Person) : PyHeap :=
  let r := obj.relationsRef classRef
  h.write r (Relationships.add_parent_and_child (h r) parent child)

/-- `find_all_children_of` through an instance: look up `self.relations` and
scan the list object it refers to. -/
def RelationshipsObj.find_all_children_of (obj : RelationshipsObj)
    (classRef : Nat) (h : PyHeap) (name : String) : List String :=
  Relationships.find_all_children_of (h (obj.relationsRef classRef)) name

/-! ## Concrete data used by the witness statements -/

/-- A concrete run: add "bread", add "phone", remove position 0, as in the
`__main__` demonstration of srp.py plus one removal. -/
def opsDemo : List Op := [Op.add "bread", Op.add "phone", Op.remove 0]

/-- The state reached by `opsDemo` from a fresh list. -/
def afterDemo : ShoppingList := ⟨["1: phone"], 1⟩

/-! ## Helper lemmas -/

/-- `all_satisfied` is true exactly when every member specification is
satisfied. -/
theorem all_satisfied_iff_forall (args : List Specification) (x : Product) :
    Specification.all_satisfied args x = true ↔
      ∀ s ∈ args, Specification.is_satisfied s x = true := by
  induction args with
  | nil => simp [Specification.all_satisfied]
  | cons a rest ih => simp [Specification.all_satisfied, Bool.and_eq_true, ih]

/-- Scanning a concatenation of edge lists yields the concatenation of the
scans. -/
theorem find_all_children_of_append (l1 l2 : List Edge) (name : String) :
    Relationships.find_all_children_of (l1 ++ l2) name
      = Relationships.find_all_children_of l1 name
        ++ Relationships.find_all_children_of l2 name := by
  induction l1 with
  | nil => simp [Relationships.find_all_children_of]
  | cons r rest ih =>
    by_cases h : r.1.name = name ∧ r.2.1 = Relationship.PARENT
    · simp [Relationships.find_all_children_of, h, ih]
    · simp [Relationships.find_all_children_of, h, ih]

/-- A name that is the subject of no edge has no children in the scan. -/
theorem find_all_children_of_eq_nil (l : List Edge) (name : String)
    (h : ∀ e ∈ l, e.1.name ≠ name) :
    Relationships.find_all_children_of l name = [] := by
  induction l with
  | nil => rfl
  | cons r rest ih =>
    have h1 : ¬(r.1.name = name ∧ r.2.1 = Relationship.PARENT) := by
      intro hc
      exact h r (List.mem_cons_self r rest) hc.1
    simp only [Relationships.find_all_children_of, if_neg h1]
    exact ih fun e he => h e (List.mem_cons_of_mem r he)

/-- After linking `P` and `C`, the children scan for `P.name` contains
`C.name` (via the forward edge), whatever the store held before. -/
theorem mem_children_after_add (relations : List Edge) (P C : Person) :
    C.name ∈ Relationships.find_all_children_of
      (Relationships.add_parent_and_child relations P C) P.name := by
  unfold Relationships.add_parent_and_child
  rw [find_all_children_of_append, find_all_children_of_append]
  have hfwd : Relationships.find_all_children_of
      [(P, Relationship.PARENT, C)] P.name = [C.name] := by
    simp [Relationships.find_all_children_of]
  refine List.mem_append_left _ (List.mem_append_right _ ?_)
  rw [hfwd]
  exact List.mem_singleton_self C.name

/-- `pyDelIndex` returns `none` exactly off the valid Python index range
`[-len, len)`. -/
theorem pyDelIndex_eq_none_iff (l : List String) (pos : Int) :
    pyDelIndex l pos = none ↔
      (pos < -(l.length : Int) ∨ (l.length : Int) ≤ pos) := by
  unfold pyDelIndex
  by_cases hneg : pos < 0
  · by_cases hcond : 0 ≤ pos + (l.length : Int) ∧ pos + (l.length : Int) < (l.length : Int)
    · simp only [if_pos hneg, if_pos hcond]
      simp
      omega
    · simp only [if_pos hneg, if_neg hcond]
      simp
      omega
  · by_cases hcond : 0 ≤ pos ∧ pos < (l.length : Int)
    · simp only [if_neg hneg, if_pos hcond]
      simp
      omega
    · simp only [if_neg hneg, if_neg hcond]
      simp
      omega

/-- A successful `pyDelIndex` erases one valid index. -/
theorem pyDelIndex_eq_some (l : List String) (pos : Int) (l2 : List String)
    (h : pyDelIndex l pos = some l2) :
    ∃ i, i < l.length ∧ l2 = l.eraseIdx i := by
  simp only [pyDelIndex] at h
  by_cases hneg : pos < 0
  · rw [if_pos hneg] at h
    by_cases hcond : 0 ≤ pos + (l.length : Int) ∧ pos + (l.length : Int) < (l.length : Int)
    · rw [if_pos hcond] at h
      injection h with h2
      exact ⟨(pos + (l.length : Int)).toNat, by omega, h2.symm⟩
    · rw [if_neg hcond] at h
      cases h
  · rw [if_neg hneg] at h
    by_cases hcond : 0 ≤ pos ∧ pos < (l.length : Int)
    · rw [if_pos hcond] at h
      injection h with h2
      exact ⟨pos.toNat, by omega, h2.symm⟩
    · rw [if_neg hcond] at h
      cases h

/-- A successful `remove_entry` decrements the count and erases one valid
index of the entry list. -/
theorem remove_entry_ok_spec (s : ShoppingList) (pos : Int) (s1 : ShoppingList)
    (h : s.remove_entry pos = Except.ok s1) :
    s1.count = s.count - 1
    ∧ ∃ i, i < s.entries.length ∧ s1.entries = s.entries.eraseIdx i := by
  unfold ShoppingList.remove_entry at h
  cases hd : pyDelIndex s.entries pos with
  | none =>
    rw [hd] at h
    cases h
  | some l =>
    rw [hd] at h
    injection h with h2
    obtain ⟨i, hi, hl⟩ := pyDelIndex_eq_some s.entries pos l hd
    subst h2
    exact ⟨rfl, i, hi, hl⟩

/-- Running a successful sequence of operations changes the count by the
number of additions minus the number of removals. -/
theorem runOps_count (ops : List Op) :
    ∀ s s1, runOps s ops = some s1 →
      s1.count = s.count + numAdds ops - numRemoves ops := by
  induction ops with
  | nil =>
    intro s s1 h
    simp only [runOps, Option.some.injEq] at h
    subst h
    simp [numAdds, numRemoves]
  | cons o rest ih =>
    intro s s1 h
    cases o with
    | add t =>
      simp only [runOps, applyOp] at h
      have h2 := ih _ _ h
      simp only [ShoppingList.add_entry] at h2
      simp only [numAdds, numRemoves]
      omega
    | remove p =>
      simp only [runOps, applyOp] at h
      cases hre : s.remove_entry p with
      | error e =>
        rw [hre] at h
        simp [Except.toOption] at h
      | ok s2 =>
        rw [hre] at h
        simp only [Except.toOption] at h
        have hcount := (remove_entry_ok_spec s p s2 hre).1
        have h2 := ih _ _ h
        simp only [numAdds, numRemoves]
        omega

/-- Running a successful sequence of operations preserves the invariant that
the count equals the number of stored entries. -/
theorem runOps_length (ops : List Op) :
    ∀ s s1, runOps s ops = some s1 →
      (s.entries.length : Int) = s.count →
      (s1.entries.length : Int) = s1.count := by
  induction ops with
  | nil =>
    intro s s1 h hinv
    simp only [runOps, Option.some.injEq] at h
    subst h
    exact hinv
  | cons o rest ih =>
    intro s s1 h hinv
    cases o with
    | add t =>
      simp only [runOps, applyOp] at h
      refine ih _ _ h ?_
      simp only [ShoppingList.add_entry, List.length_append, List.length_cons,
        List.length_nil]
      push_cast
      omega
    | remove p =>
      simp only [runOps, applyOp] at h
      cases hre : s.remove_entry p with
      | error e =>
        rw [hre] at h
        simp [Except.toOption] at h
      | ok s2 =>
        rw [hre] at h
        simp only [Except.toOption] at h
        obtain ⟨hcount, i, hi, hent⟩ := remove_entry_ok_spec s p s2 hre
        refine ih _ _ h ?_
        rw [hent, hcount, List.length_eraseIdx_of_lt hi]
        omega

/-- The entries of a state reached by a successful run are a sublist, in
order, of the starting entries followed by the strings inserted along the
run. -/
theorem runOps_sublist (ops : List Op) :
    ∀ s s1, runOps s ops = some s1 →
      List.Sublist s1.entries (s.entries ++ insertedFrom s ops) := by
  induction ops with
  | nil =>
    intro s s1 h
    simp only [runOps, Option.some.injEq] at h
    subst h
    simp [insertedFrom]
  | cons o rest ih =>
    intro s s1 h
    cases o with
    | add t =>
      simp only [runOps, applyOp] at h
      have h2 := ih _ _ h
      simp only [insertedFrom]
      simp only [ShoppingList.add_entry, List.append_assoc,
        List.singleton_append] at h2
      exact h2
    | remove p =>
      simp only [runOps, applyOp] at h
      cases hre : s.remove_entry p with
      | error e =>
        rw [hre] at h
        simp [Except.toOption] at h
      | ok s2 =>
        rw [hre] at h
        simp only [Except.toOption] at h
        obtain ⟨-, i, hi, hent⟩ := remove_entry_ok_spec s p s2 hre
        have h2 := ih _ _ h
        have hsub : List.Sublist s2.entries s.entries := by
          rw [hent]
          exact List.eraseIdx_sublist s.entries i
        simp only [insertedFrom]
        rw [hre]
        exact h2.trans (hsub.append_right _)

/-! ## Claim theorems -/

/-- Claim C1: for every finite sequence of items and every specification,
`BetterFilter.filter` yields exactly those items of the input for which
`spec.is_satisfied(item)` is true, in the same relative order as the input,
and yields no other items: it equals `List.filter` of the predicate. -/
theorem betterFilter_filter_exact (items : List Product) (spec : Specification) :
    BetterFilter.filter items spec
      = items.filter (fun item => spec.is_satisfied item) := by
  induction items with
  | nil => rfl
  | cons item rest ih =>
    cases h : spec.is_satisfied item with
    | true => simp [BetterFilter.filter, List.filter_cons, h, ih]
    | false => simp [BetterFilter.filter, List.filter_cons, h, ih]

/-- Claim C2: `AndSpecification` is satisfied by an item iff every child
specification is satisfied by it; in particular a conjunction of zero
children is satisfied by every item, and a conjunction of exactly `A` and `B`
is satisfied iff both `A` and `B` are. -/
theorem andSpecification_semantics (x : Product) (args : List Specification)
    (A B : Specification) :
    ((Specification.andSpec args).is_satisfied x = true ↔
        ∀ s ∈ args, s.is_satisfied x = true)
    ∧ (Specification.andSpec []).is_satisfied x = true
    ∧ ((Specification.andSpec [A, B]).is_satisfied x = true ↔
        A.is_satisfied x = true ∧ B.is_satisfied x = true) := by
  refine ⟨?_, ?_, ?_⟩
  · simpa [Specification.is_satisfied] using all_satisfied_iff_forall args x
  · simp [Specification.is_satisfied, Specification.all_satisfied]
  · simp [Specification.is_satisfied, Specification.all_satisfied,
      Bool.and_eq_true]

/-- Claim C8: the infix `&` operator is associative in semantics: `(A & B) & C`
and `A & (B & C)` are satisfied by exactly the same items, and both hold iff
each of `A`, `B`, `C` is individually satisfied. -/
theorem and_op_assoc_semantics (A B C : Specification) (x : Product) :
    ((A.and_op B).and_op C).is_satisfied x
        = (A.and_op (B.and_op C)).is_satisfied x
    ∧ (((A.and_op B).and_op C).is_satisfied x = true ↔
        A.is_satisfied x = true ∧ B.is_satisfied x = true
          ∧ C.is_satisfied x = true) := by
  constructor
  · simp [Specification.and_op, Specification.is_satisfied,
      Specification.all_satisfied, Bool.and_assoc]
  · simp [Specification.and_op, Specification.is_satisfied,
      Specification.all_satisfied, Bool.and_eq_true, and_assoc]

/-- Claim C4: in the corrected design, `MyPrinter` (which derives only from
`Printer`) has no `scan` and no `fax` attribute anywhere in its resolution
order — invoking them is impossible because no such operation exists on the
type — while it does have `print`; by contrast, on the anti-pattern class
`OldFashionedPrinter` the `scan` attribute exists and raises at runtime and
`fax` exists as a silent no-op. -/
theorem myPrinter_scan_absent :
    resolveMethod MyPrinter.methods MethodName.scanM = none
    ∧ resolveMethod MyPrinter.methods MethodName.faxM = none
    ∧ resolveMethod MyPrinter.methods MethodName.printM
        = some MethodBody.printsOutput
    ∧ resolveMethod OldFashionedPrinter.methods MethodName.scanM
        = some MethodBody.raisesNotImpl
    ∧ resolveMethod OldFashionedPrinter.methods MethodName.faxM
        = some MethodBody.passBody := by
  refine ⟨rfl, rfl, rfl, rfl, rfl⟩

/-- Claim C5: `add_parent_and_child` appends exactly the two directed edges
as a pair; afterwards the children query for the parent's name yields the
child's name, and the children query for a name appearing in no edge of the
store yields the empty sequence. -/
theorem relationships_link_and_query (relations : List Edge) (P C : Person)
    (unrelated : String)
    (h : ∀ e ∈ Relationships.add_parent_and_child relations P C,
        e.1.name ≠ unrelated ∧ e.2.2.name ≠ unrelated) :
    Relationships.add_parent_and_child relations P C
        = relations ++ [(P, Relationship.PARENT, C), (C, Relationship.PARENT, P)]
    ∧ C.name ∈ Relationships.find_all_children_of
        (Relationships.add_parent_and_child relations P C) P.name
    ∧ Relationships.find_all_children_of
        (Relationships.add_parent_and_child relations P C) unrelated = [] := by
  refine ⟨by simp [Relationships.add_parent_and_child], ?_, ?_⟩
  · exact mem_children_after_add relations P C
  · exact find_all_children_of_eq_nil _ unrelated fun e he => (h e he).1

/-- Claim C9: after `add_parent_and_child(P, C)`, the children query for the
child's own name yields the parent's name, because the reverse edge
`(C, PARENT, P)` is stored with the `PARENT` relation kind. -/
theorem reverse_edge_child_query_yields_parent (relations : List Edge)
    (P C : Person) :
    P.name ∈ Relationships.find_all_children_of
      (Relationships.add_parent_and_child relations P C) C.name := by
  unfold Relationships.add_parent_and_child
  rw [find_all_children_of_append]
  have hrev : Relationships.find_all_children_of
      [(C, Relationship.PARENT, P)] C.name = [P.name] := by
    simp [Relationships.find_all_children_of]
  refine List.mem_append_right _ ?_
  rw [hrev]
  exact List.mem_singleton_self P.name

/-- Claim C10: `relations` is a class-level attribute shared by all
instances: an edge pair added through one freshly constructed instance is
visible through another (every instance the source constructs has an empty
instance dictionary, so `self.relations` resolves to the single class-level
list object), and an instance constructed afterwards sees the same non-empty
store rather than a fresh empty one. -/
theorem relations_class_attribute_shared (h : PyHeap) (classRef : Nat)
    (P C : Person) :
    C.name ∈ RelationshipsObj.find_all_children_of Relationships.new classRef
        (RelationshipsObj.add_parent_and_child Relationships.new classRef h P C)
        P.name
    ∧ (RelationshipsObj.add_parent_and_child Relationships.new classRef h P C)
        (RelationshipsObj.relationsRef Relationships.new classRef)
        = Relationships.add_parent_and_child (h classRef) P C
    ∧ (RelationshipsObj.add_parent_and_child Relationships.new classRef h P C)
        (RelationshipsObj.relationsRef Relationships.new classRef) ≠ [] := by
  have href : RelationshipsObj.relationsRef Relationships.new classRef
      = classRef := rfl
  have hcell : (RelationshipsObj.add_parent_and_child Relationships.new
        classRef h P C) classRef
      = Relationships.add_parent_and_child (h classRef) P C := by
    simp [RelationshipsObj.add_parent_and_child, PyHeap.write, href]
  refine ⟨?_, by rw [href]; exact hcell, ?_⟩
  · show C.name ∈ Relationships.find_all_children_of
        ((RelationshipsObj.add_parent_and_child Relationships.new classRef h P C)
          (RelationshipsObj.relationsRef Relationships.new classRef)) P.name
    rw [href, hcell]
    exact mem_children_after_add (h classRef) P C
  · rw [href, hcell]
    simp [Relationships.add_parent_and_child]

/-- Claim C3 counterexample: the claim that `save_to_file` closes the handle
on every exit path is false: when the write raises, the body (which has no
`try`/`finally`) unwinds after `open` without reaching `close`. -/
theorem save_to_file_close_claim_false :
    ¬ ∀ (journal : ShoppingList) (beh : FsBehavior),
        FileEvent.opened ∈ (PersistenceManager.save_to_file journal beh).1 →
        FileEvent.closed ∈ (PersistenceManager.save_to_file journal beh).1 := by
  intro hall
  have h1 := hall ShoppingList.init ⟨false, true⟩ (by decide)
  exact absurd h1 (by decide)

/-- Claim C3 amended: `save_to_file` closes the handle only on the fully
successful path; when the write fails, the opened handle is leaked (and when
the open fails, no handle was created). -/
theorem save_to_file_close_paths (journal : ShoppingList) (beh : FsBehavior) :
    (beh.openFails = false → beh.writeFails = false →
      FileEvent.closed ∈ (PersistenceManager.save_to_file journal beh).1)
    ∧ (beh.openFails = false → beh.writeFails = true →
      FileEvent.opened ∈ (PersistenceManager.save_to_file journal beh).1
      ∧ FileEvent.closed ∉ (PersistenceManager.save_to_file journal beh).1)
    ∧ (beh.openFails = true →
      (PersistenceManager.save_to_file journal beh).1 = []) := by
  obtain ⟨bo, bw⟩ := beh
  cases bo <;> cases bw <;>
    simp [PersistenceManager.save_to_file]

/-- Witness for the amended claim C3 at a concrete input: a failing write on
an empty journal leaves the handle opened and never closed. -/
theorem save_to_file_close_paths_witness :
    FileEvent.opened
        ∈ (PersistenceManager.save_to_file ShoppingList.init ⟨false, true⟩).1
    ∧ FileEvent.closed
        ∉ (PersistenceManager.save_to_file ShoppingList.init ⟨false, true⟩).1 :=
  (save_to_file_close_paths ShoppingList.init ⟨false, true⟩).2.1 rfl rfl

/-- Claim C6: for every sequence of successful additions and removals
starting from a fresh list, the count equals additions minus removals and
equals the number of stored entries, and the stringified output is the
remaining entries newline-joined, those entries being an in-order
subsequence of the strings inserted along the run. -/
theorem shoppingList_ops_invariants (ops : List Op) (s1 : ShoppingList)
    (h : runOps ShoppingList.init ops = some s1) :
    s1.count = (numAdds ops : Int) - (numRemoves ops : Int)
    ∧ (s1.entries.length : Int) = s1.count
    ∧ List.Sublist s1.entries (insertedFrom ShoppingList.init ops)
    ∧ s1.str = String.intercalate "\n" s1.entries := by
  refine ⟨?_, ?_, ?_, rfl⟩
  · have h2 := runOps_count ops _ _ h
    simpa [ShoppingList.init] using h2
  · exact runOps_length ops _ _ h (by simp [ShoppingList.init])
  · have h2 := runOps_sublist ops _ _ h
    simpa [ShoppingList.init] using h2

/-- Witness for claim C6 on the concrete run `opsDemo`. -/
theorem shoppingList_ops_invariants_witness :
    afterDemo.count = (numAdds opsDemo : Int) - (numRemoves opsDemo : Int)
    ∧ (afterDemo.entries.length : Int) = afterDemo.count
    ∧ List.Sublist afterDemo.entries (insertedFrom ShoppingList.init opsDemo)
    ∧ afterDemo.str = String.intercalate "\n" afterDemo.entries :=
  shoppingList_ops_invariants opsDemo afterDemo (by decide)

/-- Claim C7: `remove_entry(pos)` raises an index error iff `pos` is out of
Python's index range `[-len, len)` for the current entries, and in that case
the entries and the count are left unchanged. -/
theorem remove_entry_error_iff_out_of_range (s : ShoppingList) (pos : Int) :
    ((∃ t, s.remove_entry pos = Except.error t) ↔
        (pos < -(s.entries.length : Int) ∨ (s.entries.length : Int) ≤ pos))
    ∧ (∀ t, s.remove_entry pos = Except.error t →
        t.entries = s.entries ∧ t.count = s.count) := by
  constructor
  · constructor
    · rintro ⟨t, ht⟩
      rw [← pyDelIndex_eq_none_iff s.entries pos]
      unfold ShoppingList.remove_entry at ht
      cases hd : pyDelIndex s.entries pos with
      | none => rfl
      | some l =>
        rw [hd] at ht
        cases ht
    · intro hrange
      refine ⟨s, ?_⟩
      unfold ShoppingList.remove_entry
      rw [(pyDelIndex_eq_none_iff s.entries pos).mpr hrange]
  · intro t ht
    unfold ShoppingList.remove_entry at ht
    cases hd : pyDelIndex s.entries pos with
    | none =>
      rw [hd] at ht
      injection ht with h2
      rw [← h2]
      exact ⟨rfl, rfl⟩
    | some l =>
      rw [hd] at ht
      cases ht

/-- Witness for claim C7 at a concrete input: removing position 2 from a
fresh empty list raises, and the failing call leaves the state as it was. -/
theorem remove_entry_error_iff_out_of_range_witness :
    (∃ t, ShoppingList.init.remove_entry 2 = Except.error t)
    ∧ (ShoppingList.init.entries = ShoppingList.init.entries
        ∧ ShoppingList.init.count = ShoppingList.init.count) :=
  ⟨(remove_entry_error_iff_out_of_range ShoppingList.init 2).1.mpr (by decide),
   (remove_entry_error_iff_out_of_range ShoppingList.init 2).2
     ShoppingList.init (by rfl)⟩

/-- Witness for claim C5 at a concrete input: linking John and Chris in an
empty store, then querying John's children and an unrelated name. -/
theorem relationships_link_and_query_witness :
    Relationships.add_parent_and_child [] ⟨"John"⟩ ⟨"Chris"⟩
        = [] ++ [(⟨"John"⟩, Relationship.PARENT, ⟨"Chris"⟩),
            (⟨"Chris"⟩, Relationship.PARENT, ⟨"John"⟩)]
    ∧ (Person.mk "Chris").name ∈ Relationships.find_all_children_of
        (Relationships.add_parent_and_child [] ⟨"John"⟩ ⟨"Chris"⟩)
        (Person.mk "John").name
    ∧ Relationships.find_all_children_of
        (Relationships.add_parent_and_child [] ⟨"John"⟩ ⟨"Chris"⟩) "Alice"
        = [] :=
  relationships_link_and_query [] ⟨"John"⟩ ⟨"Chris"⟩ "Alice" (by decide)
